import Mathlib

/-!
# Verification of the job-orchestration and streaming core

A shallow embedding of the job registry (`src/services/job_service.py`),
the background pipeline runner (`src/api/jobs.py`), the streaming
pipeline generator (`src/api/analyze.py`) and the evidence aggregation
helpers (`src/services/chat_service.py`) of the forensic-avatar backend,
together with proofs of the behavioral properties claimed for them.

External collaborators (the relational store, object storage, the
detection / OCR / language-model services) are modelled as oracles: each
call site receives its outcome (`Except String α`, an exception message
or a value) from an environment record, so the theorems quantify over
every possible behavior of the collaborators.
-/

/-! ## Python `dict` as an insertion-ordered association list

Python's `dict` preserves insertion order; assignment to an existing key
replaces the value in place, assignment to a fresh key appends at the
end, and `dict.update` performs one assignment per key of the delta.
-/

/-- Lookup of the value stored at key `k` (Python `d.get(k)` / `d[k]`). -/
def dictGet [DecidableEq κ] (k : κ) : List (κ × α) → Option α
  | [] => none
  | p :: m => if p.1 = k then some p.2 else dictGet k m

/-- Assignment `d[k] = v`: replaces the entry in place if the key is
present, otherwise appends at the end (Python insertion order). -/
def dictInsert [DecidableEq κ] (k : κ) (v : α) : List (κ × α) → List (κ × α)
  | [] => [(k, v)]
  | p :: m => if p.1 = k then (k, v) :: m else p :: dictInsert k v m

/-- `m.update(delta)`: one assignment per key–value pair of `delta`,
in order. -/
def dictUpdate [DecidableEq κ] (m delta : List (κ × α)) : List (κ × α) :=
  delta.foldl (fun acc p => dictInsert p.1 p.2 acc) m

/-- `del d[k]`: removes the entry with key `k`. -/
def dictErase [DecidableEq κ] (k : κ) (m : List (κ × α)) : List (κ × α) :=
  m.filter fun p => decide (p.1 ≠ k)

@[simp] theorem dictGet_nil [DecidableEq κ] (k : κ) :
    dictGet (α := α) k [] = none := rfl

@[simp] theorem dictGet_cons [DecidableEq κ] (k : κ) (p : κ × α) (m : List (κ × α)) :
    dictGet k (p :: m) = if p.1 = k then some p.2 else dictGet k m := rfl

theorem dictGet_dictInsert_self [DecidableEq κ] (k : κ) (v : α) (m : List (κ × α)) :
    dictGet k (dictInsert k v m) = some v := by
  induction m with
  | nil => simp [dictInsert]
  | cons p m ih =>
    by_cases h : p.1 = k
    · simp [dictInsert, h]
    · simp [dictInsert, h, ih]

theorem dictGet_dictInsert_ne [DecidableEq κ] {k k' : κ} (hne : k' ≠ k) (v : α)
    (m : List (κ × α)) : dictGet k' (dictInsert k v m) = dictGet k' m := by
  induction m with
  | nil => simp [dictInsert, Ne.symm hne]
  | cons p m ih =>
    by_cases h : p.1 = k
    · subst h
      simp [dictInsert, Ne.symm hne]
    · simp only [dictInsert, if_neg h, dictGet_cons, ih]

theorem isSome_dictGet_dictInsert [DecidableEq κ] {k : κ} {m : List (κ × α)}
    (h : (dictGet k m).isSome = true) (k' : κ) (v : α) :
    (dictGet k (dictInsert k' v m)).isSome = true := by
  by_cases hk : k = k'
  · subst hk
    simp [dictGet_dictInsert_self]
  · rwa [dictGet_dictInsert_ne hk]

theorem dictGet_dictUpdate_not_mem [DecidableEq κ] {k : κ} {delta : List (κ × α)}
    (h : k ∉ delta.map Prod.fst) (m : List (κ × α)) :
    dictGet k (dictUpdate m delta) = dictGet k m := by
  induction delta generalizing m with
  | nil => rfl
  | cons p delta ih =>
    simp only [List.map_cons, List.mem_cons, not_or] at h
    show dictGet k (dictUpdate (dictInsert p.1 p.2 m) delta) = dictGet k m
    rw [ih h.2, dictGet_dictInsert_ne h.1]

theorem dictGet_dictUpdate_of_mem [DecidableEq κ] {k : κ} {v : α} {delta : List (κ × α)}
    (hnd : (delta.map Prod.fst).Nodup) (h : dictGet k delta = some v)
    (m : List (κ × α)) : dictGet k (dictUpdate m delta) = some v := by
  induction delta generalizing m with
  | nil => simp at h
  | cons p delta ih =>
    simp only [List.map_cons, List.nodup_cons] at hnd
    show dictGet k (dictUpdate (dictInsert p.1 p.2 m) delta) = some v
    by_cases hk : p.1 = k
    · have hv : p.2 = v := by
        rw [dictGet_cons, if_pos hk] at h
        exact Option.some.inj h
      subst hk
      rw [dictGet_dictUpdate_not_mem hnd.1, dictGet_dictInsert_self, hv]
    · rw [dictGet_cons, if_neg hk] at h
      exact ih hnd.2 h _

theorem mem_keys_of_dictGet_some [DecidableEq κ] {k : κ} {v : α} :
    ∀ {d : List (κ × α)}, dictGet k d = some v → k ∈ d.map Prod.fst := by
  intro d
  induction d with
  | nil => intro h; simp at h
  | cons p d ih =>
    intro h
    by_cases hp : p.1 = k
    · simp [List.map_cons, hp]
    · rw [dictGet_cons, if_neg hp] at h
      exact List.mem_cons_of_mem _ (ih h)

theorem isSome_dictGet_dictUpdate [DecidableEq κ] {k : κ} {m : List (κ × α)}
    (h : (dictGet k m).isSome = true) (delta : List (κ × α)) :
    (dictGet k (dictUpdate m delta)).isSome = true := by
  induction delta generalizing m with
  | nil => exact h
  | cons p delta ih =>
    exact ih (isSome_dictGet_dictInsert h p.1 p.2)

theorem dictGet_dictErase_self [DecidableEq κ] (k : κ) (m : List (κ × α)) :
    dictGet k (dictErase k m) = none := by
  induction m with
  | nil => rfl
  | cons p m ih =>
    by_cases h : p.1 = k
    · simpa [dictErase, h] using ih
    · simpa [dictErase, h] using ih

/-! ## The Job data model (`src/services/job_service.py`)

Timestamps are modelled as natural numbers supplied by the caller (the
code reads `datetime.utcnow()`, a nondecreasing but not strictly
increasing clock).  Job identifiers (`uuid4`) are modelled as naturals
supplied fresh by the caller.
-/

/-- `JobStatus` enumeration. -/
inductive JobStatus where
  | pending
  | running
  | completed
  | failed
deriving DecidableEq, Repr

/-- A value stored in a job's `progress` dict (the code stores ints and
strings). -/
inductive PVal where
  | nat (n : Nat)
  | str (s : String)
deriving DecidableEq, Repr

/-- The `result` payload written on completion by `run_analysis_job`. -/
structure ResultPayload where
  message_id : String
  hypothesis : String
  objects_detected : Nat
  texts_extracted : Nat
deriving DecidableEq, Repr

/-- The `Job` dataclass. -/
structure Job where
  id : Nat
  status : JobStatus
  created_at : Nat
  updated_at : Nat
  current_step : Option String := none
  progress : List (String × PVal) := []
  result : Option ResultPayload := none
  error : Option String := none
deriving DecidableEq, Repr

/-- The in-memory dict of `JobStore` (the lock only serializes the
operations, which are therefore modelled as atomic functions). -/
structure JobStore where
  jobs : List (Nat × Job)
deriving DecidableEq, Repr

/-- `JobStore.create_job`: fresh id and current time are inputs of the
model (`uuid4()` / `datetime.utcnow()`). -/
def create_job (s : JobStore) (id now : Nat) : Job × JobStore :=
  let job : Job := { id := id, status := JobStatus.pending, created_at := now, updated_at := now }
  (job, { jobs := dictInsert job.id job s.jobs })

/-- `JobStore.get_job`. -/
def get_job (s : JobStore) (job_id : Nat) : Option Job :=
  dictGet job_id s.jobs

/-- The optional arguments of `JobStore.update_job`; `none` models an
omitted (defaulted-to-`None`) argument. -/
structure UpdateArgs where
  status : Option JobStatus := none
  current_step : Option String := none
  progress : Option (List (String × PVal)) := none
  result : Option ResultPayload := none
  error : Option String := none
deriving DecidableEq, Repr

/-- The field mutations performed by `JobStore.update_job` on a found
job: each `if <arg> is not None` guard applies that field, and
`updated_at` is always refreshed. -/
def applyUpdate (j : Job) (a : UpdateArgs) (now : Nat) : Job :=
  let j1 := match a.status with
    | some v => { j with status := v }
    | none => j
  let j2 := match a.current_step with
    | some v => { j1 with current_step := some v }
    | none => j1
  let j3 := match a.progress with
    | some d => { j2 with progress := dictUpdate j2.progress d }
    | none => j2
  let j4 := match a.result with
    | some v => { j3 with result := some v }
    | none => j3
  let j5 := match a.error with
    | some v => { j4 with error := some v }
    | none => j4
  { j5 with updated_at := now }

/-- `JobStore.update_job`: returns `none` and leaves the store unchanged
when the id is unknown. -/
def update_job (s : JobStore) (job_id : Nat) (a : UpdateArgs) (now : Nat) :
    Option Job × JobStore :=
  match dictGet job_id s.jobs with
  | none => (none, s)
  | some j =>
    let j2 := applyUpdate j a now
    (some j2, { jobs := dictInsert job_id j2 s.jobs })

/-- `JobStore.delete_job`. -/
def delete_job (s : JobStore) (job_id : Nat) : Bool × JobStore :=
  if (dictGet job_id s.jobs).isSome then
    (true, { jobs := dictErase job_id s.jobs })
  else
    (false, s)

/-- The sort relation of `JobStore.list_jobs`
(`key=lambda j: j.created_at, reverse=True`). -/
@[reducible] def moreRecentEq (a b : Job) : Prop :=
  b.created_at ≤ a.created_at

instance : DecidableRel moreRecentEq := fun a b => Nat.decLe b.created_at a.created_at

instance : IsTotal Job moreRecentEq :=
  ⟨fun a b => Nat.le_total b.created_at a.created_at⟩

instance : IsTrans Job moreRecentEq :=
  ⟨fun _ _ _ h1 h2 => Nat.le_trans h2 h1⟩

/-- `JobStore.list_jobs`: stable sort of the dict's values by
`created_at` descending, truncated to `limit`.  (`insertionSort` places
an element before later-inserted elements of equal key, exactly like
Python's stable `sorted(..., reverse=True)`.) -/
def list_jobs (s : JobStore) (limit : Nat) : List Job :=
  (List.insertionSort moreRecentEq (s.jobs.map Prod.snd)).take limit

/-- Normal form of `applyUpdate`, one equation per field. -/
theorem applyUpdate_eq (j : Job) (a : UpdateArgs) (now : Nat) :
    applyUpdate j a now =
      { id := j.id,
        status := a.status.getD j.status,
        created_at := j.created_at,
        updated_at := now,
        current_step := (a.current_step.map some).getD j.current_step,
        progress := (a.progress.map (fun d => dictUpdate j.progress d)).getD j.progress,
        result := (a.result.map some).getD j.result,
        error := (a.error.map some).getD j.error } := by
  rcases a with ⟨st, cs, pr, re, er⟩
  cases st <;> cases cs <;> cases pr <;> cases re <;> cases er <;> rfl

/-- On a present id, `update_job` stores and returns `applyUpdate`. -/
theorem update_job_found {s : JobStore} {job_id : Nat} {j : Job}
    (hj : dictGet job_id s.jobs = some j) (a : UpdateArgs) (now : Nat) :
    update_job s job_id a now =
      (some (applyUpdate j a now),
       { jobs := dictInsert job_id (applyUpdate j a now) s.jobs }) := by
  simp [update_job, hj]

/-- After a successful `update_job`, looking the id up yields the
updated job. -/
theorem dictGet_update_job {s : JobStore} {job_id : Nat} {j : Job}
    (hj : dictGet job_id s.jobs = some j) (a : UpdateArgs) (now : Nat) :
    dictGet job_id ((update_job s job_id a now).2).jobs = some (applyUpdate j a now) := by
  rw [update_job_found hj]
  exact dictGet_dictInsert_self _ _ _

/-! ## Registry claims -/

/-- A job's progress-key presence is preserved by one `update_job` field
application. -/
theorem applyUpdate_mono_progress {j : Job} {k : String}
    (h : (dictGet k j.progress).isSome = true) (a : UpdateArgs) (now : Nat) :
    (dictGet k (applyUpdate j a now).progress).isSome = true := by
  rw [applyUpdate_eq]
  cases hp : a.progress with
  | none => simpa using h
  | some d => simpa using isSome_dictGet_dictUpdate h d

/-- `current_step`, `result` and `error` never return from set to unset
under one `update_job` field application. -/
theorem applyUpdate_mono_opts (j : Job) (a : UpdateArgs) (now : Nat) :
    (j.current_step.isSome = true → (applyUpdate j a now).current_step.isSome = true) ∧
    (j.result.isSome = true → (applyUpdate j a now).result.isSome = true) ∧
    (j.error.isSome = true → (applyUpdate j a now).error.isSome = true) := by
  rw [applyUpdate_eq]
  refine ⟨?_, ?_, ?_⟩ <;> intro h
  · cases a.current_step with
    | none => simpa using h
    | some v => simp
  · cases a.result with
    | none => simpa using h
    | some v => simp
  · cases a.error with
    | none => simpa using h
    | some v => simp

/-- Monotonicity of the mutable fields across any sequence of update
applications. -/
theorem foldl_applyUpdate_mono (now : Nat) (k : String) (us : List UpdateArgs) :
    ∀ j : Job,
      ((dictGet k j.progress).isSome = true →
        (dictGet k (us.foldl (fun jj aa => applyUpdate jj aa now) j).progress).isSome = true) ∧
      (j.current_step.isSome = true →
        (us.foldl (fun jj aa => applyUpdate jj aa now) j).current_step.isSome = true) ∧
      (j.result.isSome = true →
        (us.foldl (fun jj aa => applyUpdate jj aa now) j).result.isSome = true) ∧
      (j.error.isSome = true →
        (us.foldl (fun jj aa => applyUpdate jj aa now) j).error.isSome = true) := by
  induction us with
  | nil => exact fun j => ⟨id, id, id, id⟩
  | cons a us ih =>
    intro j
    refine ⟨fun h => ?_, fun h => ?_, fun h => ?_, fun h => ?_⟩
    · exact (ih (applyUpdate j a now)).1 (applyUpdate_mono_progress h a now)
    · exact (ih (applyUpdate j a now)).2.1 ((applyUpdate_mono_opts j a now).1 h)
    · exact (ih (applyUpdate j a now)).2.2.1 ((applyUpdate_mono_opts j a now).2.1 h)
    · exact (ih (applyUpdate j a now)).2.2.2 ((applyUpdate_mono_opts j a now).2.2 h)

/-- C4: two `update_job` calls with disjoint progress deltas merge into
the union of both deltas; untouched keys keep their previous value. -/
theorem claim_c4_progress_merge (s : JobStore) (job_id now1 now2 : Nat) (j : Job)
    (hj : dictGet job_id s.jobs = some j)
    (d1 d2 : List (String × PVal))
    (hn1 : (d1.map Prod.fst).Nodup) (hn2 : (d2.map Prod.fst).Nodup)
    (hdisj : ∀ x, x ∈ d1.map Prod.fst → x ∉ d2.map Prod.fst) :
    ∀ j2 : Job,
      dictGet job_id
        ((update_job (update_job s job_id { progress := some d1 } now1).2
          job_id { progress := some d2 } now2).2).jobs = some j2 →
      (∀ k v, dictGet k d1 = some v → dictGet k j2.progress = some v) ∧
      (∀ k v, dictGet k d2 = some v → dictGet k j2.progress = some v) ∧
      (∀ k, k ∉ d1.map Prod.fst → k ∉ d2.map Prod.fst →
        dictGet k j2.progress = dictGet k j.progress) := by
  intro j2 hj2
  have h1 := dictGet_update_job hj { progress := some d1 } now1
  have h2 := dictGet_update_job h1 { progress := some d2 } now2
  rw [hj2] at h2
  have hj2eq : j2 = applyUpdate (applyUpdate j { progress := some d1 } now1)
      { progress := some d2 } now2 := Option.some.inj h2
  have hp : j2.progress = dictUpdate (dictUpdate j.progress d1) d2 := by
    rw [hj2eq]
    rfl
  refine ⟨?_, ?_, ?_⟩
  · intro k v hk
    have hkmem : k ∉ d2.map Prod.fst := hdisj k (mem_keys_of_dictGet_some hk)
    rw [hp, dictGet_dictUpdate_not_mem hkmem,
      dictGet_dictUpdate_of_mem hn1 hk]
  · intro k v hk
    rw [hp, dictGet_dictUpdate_of_mem hn2 hk]
  · intro k hk1 hk2
    rw [hp, dictGet_dictUpdate_not_mem hk2, dictGet_dictUpdate_not_mem hk1]

/-- C5: progress keys only accumulate and set fields never return to
unset, both for one `update_job` call and across any sequence of update
applications; an omitted argument leaves its field unchanged. -/
theorem claim_c5_monotone_fields (s : JobStore) (job_id : Nat) (a : UpdateArgs)
    (now : Nat) (j j2 : Job) (k : String)
    (hj : dictGet job_id s.jobs = some j)
    (hj2 : dictGet job_id ((update_job s job_id a now).2).jobs = some j2) :
    ((dictGet k j.progress).isSome = true → (dictGet k j2.progress).isSome = true) ∧
    (j.current_step.isSome = true → j2.current_step.isSome = true) ∧
    (j.result.isSome = true → j2.result.isSome = true) ∧
    (j.error.isSome = true → j2.error.isSome = true) ∧
    (a.current_step = none → j2.current_step = j.current_step) ∧
    (a.result = none → j2.result = j.result) ∧
    (a.error = none → j2.error = j.error) ∧
    (a.progress = none → j2.progress = j.progress) ∧
    (∀ us : List UpdateArgs,
      (dictGet k j.progress).isSome = true →
        (dictGet k (us.foldl (fun jj aa => applyUpdate jj aa now) j).progress).isSome = true) := by
  have hj2eq : j2 = applyUpdate j a now := by
    have := dictGet_update_job hj a now
    rw [hj2] at this
    exact Option.some.inj this
  subst hj2eq
  refine ⟨fun h => applyUpdate_mono_progress h a now,
    (applyUpdate_mono_opts j a now).1,
    (applyUpdate_mono_opts j a now).2.1,
    (applyUpdate_mono_opts j a now).2.2, ?_, ?_, ?_, ?_,
    fun us h => (foldl_applyUpdate_mono now k us j).1 h⟩
  · intro hcs
    simp [applyUpdate_eq, hcs]
  · intro hre
    simp [applyUpdate_eq, hre]
  · intro her
    simp [applyUpdate_eq, her]
  · intro hpr
    simp [applyUpdate_eq, hpr]

/-- C9: an update changes only the provided fields, never `created_at`,
and always refreshes `updated_at`. -/
theorem claim_c9_frame (s : JobStore) (job_id : Nat) (a : UpdateArgs) (now : Nat)
    (j : Job) (hj : dictGet job_id s.jobs = some j) :
    ∀ j2 : Job,
      dictGet job_id ((update_job s job_id a now).2).jobs = some j2 →
      j2.created_at = j.created_at ∧
      j2.updated_at = now ∧
      j2.id = j.id ∧
      (a.status = none → j2.status = j.status) ∧
      (a.current_step = none → j2.current_step = j.current_step) ∧
      (a.progress = none → j2.progress = j.progress) ∧
      (a.result = none → j2.result = j.result) ∧
      (a.error = none → j2.error = j.error) := by
  intro j2 hj2
  have hj2eq : j2 = applyUpdate j a now := by
    have := dictGet_update_job hj a now
    rw [hj2] at this
    exact Option.some.inj this
  subst hj2eq
  rw [applyUpdate_eq]
  refine ⟨rfl, rfl, rfl, ?_, ?_, ?_, ?_, ?_⟩ <;> intro h <;> simp [h]

/-- C10: deleting an existing job succeeds once and reports not-found on
the second call; in general `delete_job` removes the entry iff present
and reports exactly whether a removal occurred. -/
theorem claim_c10_delete_twice (s : JobStore) (job_id : Nat)
    (h : (dictGet job_id s.jobs).isSome = true) :
    (delete_job s job_id).1 = true ∧
    (delete_job (delete_job s job_id).2 job_id).1 = false ∧
    (∀ (s2 : JobStore) (i : Nat),
      (delete_job s2 i).1 = (dictGet i s2.jobs).isSome ∧
      dictGet i ((delete_job s2 i).2).jobs = none ∧
      ((dictGet i s2.jobs).isSome = false → (delete_job s2 i).2 = s2)) := by
  have hgen : ∀ (s2 : JobStore) (i : Nat),
      (delete_job s2 i).1 = (dictGet i s2.jobs).isSome ∧
      dictGet i ((delete_job s2 i).2).jobs = none ∧
      ((dictGet i s2.jobs).isSome = false → (delete_job s2 i).2 = s2) := by
    intro s2 i
    by_cases hi : (dictGet i s2.jobs).isSome = true
    · refine ⟨by simp [delete_job, hi], ?_, by simp [hi]⟩
      simp only [delete_job, hi, if_pos]
      exact dictGet_dictErase_self i s2.jobs
    · have hi' : dictGet i s2.jobs = none := by
        cases hx : dictGet i s2.jobs with
        | none => rfl
        | some v => rw [hx] at hi; simp at hi
      exact ⟨by simp [delete_job, hi'], by simp [delete_job, hi'],
        fun _ => by simp [delete_job, hi']⟩
  refine ⟨by simp [delete_job, h], ?_, hgen⟩
  simp [delete_job, h, dictGet_dictErase_self]

/-- A non-strictly sorted run of jobs with pairwise-distinct timestamps
is strictly sorted. -/
theorem sorted_strict_of_nodup_created :
    ∀ l : List Job, l.Sorted moreRecentEq →
      (l.map fun j => j.created_at).Nodup →
      l.Sorted fun a b => b.created_at < a.created_at := by
  intro l
  induction l with
  | nil => intro _ _; simp
  | cons x xs ih =>
    intro hs hn
    rw [List.sorted_cons] at hs ⊢
    rw [List.map_cons, List.nodup_cons] at hn
    refine ⟨fun b hb => ?_, ih hs.2 hn.2⟩
    have h1 : b.created_at ≤ x.created_at := hs.1 b hb
    have h2 : ¬x.created_at = b.created_at :=
      fun he => hn.1 (by rw [he]; exact List.mem_map_of_mem _ hb)
    omega

/-- C6 (amended): `list_jobs` returns jobs in descending `created_at`
order (strict whenever all stored timestamps are distinct), of length at
most the limit and at most the number of stored jobs. -/
theorem claim_c6_list_jobs (s : JobStore) (N : Nat) :
    (list_jobs s N).Sorted moreRecentEq ∧
    (list_jobs s N).length ≤ N ∧
    (list_jobs s N).length ≤ s.jobs.length ∧
    ((s.jobs.map fun p => p.2.created_at).Nodup →
      (list_jobs s N).Sorted fun a b => b.created_at < a.created_at) := by
  have hperm := List.perm_insertionSort moreRecentEq (s.jobs.map Prod.snd)
  have hsorted := List.sorted_insertionSort moreRecentEq (s.jobs.map Prod.snd)
  refine ⟨?_, ?_, ?_, ?_⟩
  · exact List.Pairwise.sublist (List.take_sublist _ _) hsorted
  · simp [list_jobs]
  · simp only [list_jobs, List.length_take]
    calc min N (List.insertionSort moreRecentEq (s.jobs.map Prod.snd)).length
        ≤ (List.insertionSort moreRecentEq (s.jobs.map Prod.snd)).length :=
          Nat.min_le_right _ _
      _ = s.jobs.length := by rw [hperm.length_eq, List.length_map]
  · intro hn
    have hmap : (s.jobs.map Prod.snd).map (fun j => j.created_at) =
        s.jobs.map fun p => p.2.created_at := by
      rw [List.map_map]
      rfl
    have hn2 : ((List.insertionSort moreRecentEq (s.jobs.map Prod.snd)).map
        fun j => j.created_at).Nodup :=
      ((hperm.map fun j => j.created_at).nodup_iff).mpr (by rw [hmap]; exact hn)
    exact List.Pairwise.sublist (List.take_sublist _ _)
      (sorted_strict_of_nodup_created _ hsorted hn2)

/-- Registry produced by two `create_job` calls within the same clock
tick (equal `created_at`), as can happen under `datetime.utcnow()`. -/
def c6Store : JobStore := (create_job (create_job { jobs := [] } 1 5).2 2 5).2

/-- C6 as literally stated is false: with two jobs created at the same
timestamp the listing is not *strictly* descending. -/
theorem claim_c6_counterexample :
    ¬ (list_jobs c6Store 20).Sorted fun a b => b.created_at < a.created_at := by
  decide

/-- Registry with two distinct creation timestamps. -/
def c6StoreW : JobStore := (create_job (create_job { jobs := [] } 1 9).2 2 5).2

theorem claim_c6_witness :
    (list_jobs c6StoreW 20).Sorted fun a b => b.created_at < a.created_at :=
  (claim_c6_list_jobs c6StoreW 20).2.2.2 (by decide)

/-- A one-job registry used to instantiate the registry theorems. -/
def sampleStore : JobStore := (create_job { jobs := [] } 1 0).2

/-- The job stored in `sampleStore`. -/
def sampleJob : Job := (create_job { jobs := [] } 1 0).1

theorem claim_c4_witness :
    dictGet "image"
      (applyUpdate (applyUpdate sampleJob { progress := some [("image", PVal.nat 1)] } 3)
        { progress := some [("step", PVal.str "ocr")] } 4).progress = some (PVal.nat 1) := by
  refine (claim_c4_progress_merge sampleStore 1 3 4 sampleJob (by decide)
    [("image", PVal.nat 1)] [("step", PVal.str "ocr")] (by decide) (by decide)
    ?_ _ ?_).1 "image" (PVal.nat 1) (by decide)
  · intro x hx
    simp only [List.map_cons, List.map_nil, List.mem_singleton] at hx
    subst hx
    decide
  · exact dictGet_update_job (dictGet_update_job (by decide) _ 3) _ 4

/-- The sample job after one update setting a step and one progress key. -/
def sampleJob2 : Job :=
  applyUpdate sampleJob
    { current_step := some "detection", progress := some [("image", PVal.nat 1)] } 1

/-- `sampleStore` after the corresponding `update_job` call. -/
def sampleStore2 : JobStore :=
  (update_job sampleStore 1
    { current_step := some "detection", progress := some [("image", PVal.nat 1)] } 1).2

theorem claim_c5_witness :
    (dictGet "image" (applyUpdate sampleJob2 { status := some JobStatus.running } 2).progress).isSome = true :=
  (claim_c5_monotone_fields sampleStore2 1 { status := some JobStatus.running } 2
    sampleJob2 (applyUpdate sampleJob2 { status := some JobStatus.running } 2) "image"
    (by decide) (by decide)).1 (by decide)

theorem claim_c9_witness :
    (applyUpdate sampleJob {} 7).created_at = sampleJob.created_at :=
  ((claim_c9_frame sampleStore 1 {} 7 sampleJob (by decide))
    (applyUpdate sampleJob {} 7) (by decide)).1

theorem claim_c10_witness : (delete_job sampleStore 1).1 = true :=
  (claim_c10_delete_twice sampleStore 1 (by decide)).1

/-! ## Evidence aggregation (`src/services/chat_service.py`)

Confidence scores are modelled as rationals; the bounding-box /
position components of evidence rows are only persisted to the
relational store (outside this model) and never read by the functions
verified here.
-/

/-- A detected-object record as consumed by the aggregators and
runners: `label` and `confidence`. -/
structure DetectedItem where
  label : String
  confidence : ℚ
deriving DecidableEq, Repr

/-- An extracted-text record as consumed by the pipeline runners:
`text` and `confidence`. -/
structure ExtractedItem where
  text : String
  confidence : ℚ
deriving DecidableEq, Repr

/-- An `ExtractedText` row as read back by the evidence builder
(nullable `confidence` column). -/
structure TextEvidence where
  text : String
  confidence : Option ℚ
deriving DecidableEq, Repr

/-- `_confidence_label`. -/
def _confidence_label (confidence : ℚ) : String :=
  if confidence ≥ 0.8 then "[HIGH]"
  else if confidence ≥ 0.5 then "[MEDIUM]"
  else "[LOW]"

/-- The rendering of one detected object inside
`_build_evidence_context`. -/
def renderObject (obj : DetectedItem) : String :=
  _confidence_label obj.confidence ++ " " ++ obj.label

/-- The rendering of one extracted text inside
`_build_evidence_context`: a missing confidence defaults to `0.7`. -/
def renderTextItem (t : TextEvidence) : String :=
  let conf_val : ℚ := match t.confidence with
    | some c => c
    | none => 0.7
  _confidence_label conf_val ++ " \"" ++ t.text ++ "\""

/-- The evidence rows the relational store holds for one image of the
conversation. -/
structure ImageEvidence where
  objects : List DetectedItem
  texts : List TextEvidence
deriving DecidableEq, Repr

/-- The `objects_str` rendering of `_build_evidence_context`. -/
def objects_str (images : List ImageEvidence) : String :=
  let all_objects := (images.map fun im => im.objects.map renderObject).flatten
  if all_objects.isEmpty then "No objects detected"
  else String.intercalate ", " all_objects

/-- The `texts_str` rendering of `_build_evidence_context`. -/
def texts_str (images : List ImageEvidence) : String :=
  let all_texts := (images.map fun im => im.texts.map renderTextItem).flatten
  if all_texts.isEmpty then "No text extracted"
  else String.intercalate ", " all_texts

/-- `_build_evidence_context`: empty conversations short-circuit to the
empty string, otherwise the two evidence lists are rendered into the
prompt template. -/
def _build_evidence_context (images : List ImageEvidence) : String :=
  if images.isEmpty then ""
  else
    "Evidence from the scene:\nObjects detected: " ++ objects_str images ++
      "\nText found: " ++ texts_str images

/-- C7: confidence bucket thresholds, the claimed boundary values, and
the 0.7 default applied to texts without a stored confidence. -/
theorem claim_c7_confidence_buckets (c : ℚ) :
    (0.8 ≤ c → _confidence_label c = "[HIGH]") ∧
    (0.5 ≤ c → c < 0.8 → _confidence_label c = "[MEDIUM]") ∧
    (c < 0.5 → _confidence_label c = "[LOW]") ∧
    _confidence_label 0.8 = "[HIGH]" ∧
    _confidence_label 0.79999 = "[MEDIUM]" ∧
    _confidence_label 0.5 = "[MEDIUM]" ∧
    _confidence_label 0.499 = "[LOW]" ∧
    _confidence_label 0 = "[LOW]" ∧
    (∀ s : String, renderTextItem { text := s, confidence := none } =
      _confidence_label 0.7 ++ " \"" ++ s ++ "\"") ∧
    _confidence_label 0.7 = "[MEDIUM]" := by
  refine ⟨?_, ?_, ?_, ?_, ?_, ?_, ?_, ?_, fun s => rfl, ?_⟩
  · intro h
    unfold _confidence_label
    rw [if_pos h]
  · intro h1 h2
    unfold _confidence_label
    rw [if_neg (not_le.mpr h2), if_pos h1]
  · intro h
    unfold _confidence_label
    rw [if_neg (not_le.mpr (lt_trans h (by norm_num))), if_neg (not_le.mpr h)]
  · norm_num [_confidence_label]
  · norm_num [_confidence_label]
  · norm_num [_confidence_label]
  · norm_num [_confidence_label]
  · norm_num [_confidence_label]
  · norm_num [_confidence_label]

theorem claim_c7_witness : _confidence_label 0.9 = "[HIGH]" :=
  (claim_c7_confidence_buckets 0.9).1 (by norm_num)

/-- C8 as literally stated is false on a conversation with no images:
both evidence lists are empty, yet the aggregator returns `""` and no
fallback text is rendered. -/
theorem claim_c8_counterexample :
    _build_evidence_context [] = "" ∧
    _build_evidence_context [] ≠
      "Evidence from the scene:\nObjects detected: No objects detected\nText found: No text extracted" := by
  refine ⟨rfl, ?_⟩
  decide

/-- C8 (amended): on a conversation with at least one image, an empty
object list renders the literal `"No objects detected"` and an empty
text list the literal `"No text extracted"` in their template slots,
while non-empty lists are rendered as comma-joined bucket-labelled
tokens. -/
theorem claim_c8_empty_fallbacks (images : List ImageEvidence)
    (hne : images ≠ []) :
    _build_evidence_context images =
      "Evidence from the scene:\nObjects detected: " ++ objects_str images ++
        "\nText found: " ++ texts_str images ∧
    ((images.map fun im => im.objects.map renderObject).flatten = [] →
      objects_str images = "No objects detected") ∧
    ((images.map fun im => im.texts.map renderTextItem).flatten = [] →
      texts_str images = "No text extracted") ∧
    ((images.map fun im => im.objects.map renderObject).flatten ≠ [] →
      objects_str images =
        String.intercalate ", " ((images.map fun im => im.objects.map renderObject).flatten)) ∧
    ((images.map fun im => im.texts.map renderTextItem).flatten ≠ [] →
      texts_str images =
        String.intercalate ", " ((images.map fun im => im.texts.map renderTextItem).flatten)) := by
  have hne' : images.isEmpty = false := by
    cases images with
    | nil => exact absurd rfl hne
    | cons a l => rfl
  refine ⟨by simp [_build_evidence_context, hne'], ?_, ?_, ?_, ?_⟩
  · intro h
    simp [objects_str, h]
  · intro h
    simp [texts_str, h]
  · intro h
    cases hj : (images.map fun im => im.objects.map renderObject).flatten with
    | nil => exact absurd hj h
    | cons x xs => simp [objects_str, hj]
  · intro h
    cases hj : (images.map fun im => im.texts.map renderTextItem).flatten with
    | nil => exact absurd hj h
    | cons x xs => simp [texts_str, hj]

theorem claim_c8_witness :
    objects_str [{ objects := [], texts := [] }] = "No objects detected" :=
  (claim_c8_empty_fallbacks [{ objects := [], texts := [] }] (by simp)).2.1 rfl

/-! ## The background pipeline runner (`src/api/jobs.py`)

`run_analysis_job` is embedded as the sequence of `update_job` argument
records it issues against the registry.  Every external call
(relational-store queries and commits, presigned-url resolution,
detection, OCR, hypothesis generation, message persistence) is an
oracle outcome `Except String α` drawn from the environment: the
`error` case is the call raising an exception with that message.
-/

/-- The oracle outcomes of the external calls made while processing one
image (in call order: `get_presigned_url`, the status-Processing
commit, `detect_objects`, `extract_text`, the status-Completed
commit). -/
structure ImageEnv where
  presigned : Except String String
  commitProcessing : Except String Unit
  detect : Except String (List DetectedItem)
  extractText : Except String (List ExtractedItem)
  commitCompleted : Except String Unit

/-- The oracle outcomes of one invocation of the background runner. -/
structure JobEnv where
  conversationId : String
  fetchConversation : Except String Bool
  fetchImages : Except String (List ImageEnv)
  genHypothesis : Except String String
  saveMessage : Except String String

/-- The `update_job` arguments of the two early-return failure branches
and of the top-level `except` clause. -/
def failedArgs (e : String) : UpdateArgs :=
  { status := some JobStatus.failed, error := some e }

/-- The `update_job` arguments of the completion branch. -/
def completedArgs (message_id content : String)
    (objects_detected texts_extracted : Nat) : UpdateArgs :=
  { status := some JobStatus.completed, current_step := some "complete",
    result := some
      { message_id := message_id, hypothesis := content,
        objects_detected := objects_detected, texts_extracted := texts_extracted } }

/-- The per-image loop of `run_analysis_job`: emits the detection and
OCR progress updates, accumulates `all_objects_data` /
`all_texts_data`, and aborts with the first exception. -/
def processImages (total : Nat) :
    List ImageEnv → Nat → List DetectedItem → List ExtractedItem →
      List UpdateArgs × Except String (List DetectedItem × List ExtractedItem)
  | [], _, objs, txts => ([], Except.ok (objs, txts))
  | img :: rest, idx, objs, txts =>
    match img.presigned with
    | Except.error e => ([], Except.error e)
    | Except.ok _ =>
      match img.commitProcessing with
      | Except.error e => ([], Except.error e)
      | Except.ok _ =>
        let u1 : UpdateArgs :=
          { current_step := some "detection",
            progress := some [("image", PVal.nat idx), ("total_images", PVal.nat total),
              ("step", PVal.str "detection")] }
        match img.detect with
        | Except.error e => ([u1], Except.error e)
        | Except.ok det =>
          let u2 : UpdateArgs :=
            { current_step := some "ocr",
              progress := some [("image", PVal.nat idx), ("total_images", PVal.nat total),
                ("step", PVal.str "ocr")] }
          match img.extractText with
          | Except.error e => ([u1, u2], Except.error e)
          | Except.ok ext =>
            match img.commitCompleted with
            | Except.error e => ([u1, u2], Except.error e)
            | Except.ok _ =>
              let res := processImages total rest (idx + 1) (objs ++ det) (txts ++ ext)
              (u1 :: u2 :: res.1, res.2)

/-- The `update_job` arguments of the `nlp` stage notification. -/
def nlpArgs : UpdateArgs :=
  { current_step := some "nlp",
    progress := some [("step", PVal.str "nlp"), ("status", PVal.str "generating hypothesis")] }

/-- The initial `update_job` arguments of a run
(`status=RUNNING, current_step="validating"`). -/
def validatingArgs : UpdateArgs :=
  { status := some JobStatus.running, current_step := some "validating" }

/-- `run_analysis_job` as the ordered list of `update_job` argument
records it issues: the initial Running/validating update, the two
validation early-failures, the per-image loop, the nlp notification,
and the terminal Completed/Failed update (the `except` clause turns any
exception into a Failed update carrying its message). -/
def run_analysis_job (env : JobEnv) : List UpdateArgs :=
  let u0 : UpdateArgs := validatingArgs
  match env.fetchConversation with
  | Except.error e => [u0, failedArgs e]
  | Except.ok found =>
    if found then
      match env.fetchImages with
      | Except.error e => [u0, failedArgs e]
      | Except.ok images =>
        if images.isEmpty then [u0, failedArgs "No images in conversation"]
        else
          match processImages images.length images 1 [] [] with
          | (us, Except.error e) => u0 :: us ++ [failedArgs e]
          | (us, Except.ok (objs, txts)) =>
            match env.genHypothesis with
            | Except.error e => u0 :: us ++ [nlpArgs, failedArgs e]
            | Except.ok content =>
              match env.saveMessage with
              | Except.error e => u0 :: us ++ [nlpArgs, failedArgs e]
              | Except.ok msgId =>
                u0 :: us ++ [nlpArgs, completedArgs msgId content objs.length txts.length]
    else [u0, failedArgs ("Conversation " ++ env.conversationId ++ " not found")]

/-- The message of the failure that aborts a `run_analysis_job`
invocation, `none` when the run completes; follows the runner's control
flow. -/
def firstJobFailure (env : JobEnv) : Option String :=
  match env.fetchConversation with
  | Except.error e => some e
  | Except.ok found =>
    if found then
      match env.fetchImages with
      | Except.error e => some e
      | Except.ok images =>
        if images.isEmpty then some "No images in conversation"
        else
          match (processImages images.length images 1 [] []).2 with
          | Except.error e => some e
          | Except.ok _ =>
            match env.genHypothesis with
            | Except.error e => some e
            | Except.ok _ =>
              match env.saveMessage with
              | Except.error e => some e
              | Except.ok _ => none
    else some ("Conversation " ++ env.conversationId ++ " not found")

/-- The job freshly inserted for a run (`job_store.create_job()`). -/
def initialJob (id t : Nat) : Job :=
  (create_job { jobs := [] } id t).1

/-- The job record after the first `n` updates of a run have been
applied (each successful `update_job` stores `applyUpdate` of the
previous record). -/
def jobStateAt (j : Job) (us : List UpdateArgs) (now n : Nat) : Job :=
  (us.take n).foldl (fun jj a => applyUpdate jj a now) j

/-- Updates that carry neither `result` nor `error`. -/
def bodyArgs (u : UpdateArgs) : Bool :=
  u.result.isNone && u.error.isNone

/-! ## The streaming generator (`src/api/analyze.py`)

`analyze_stream_generator` is embedded as the list of SSE events it
yields.  The token generators (`generate_hypotheses_stream_groq`,
`analyze_multiple_images_with_vision_stream`) are lazy: the oracle
supplies the tokens they yield plus an optional exception raised after
the last yielded token.
-/

/-- Python `str.strip()` with no argument: removes leading and trailing
whitespace. -/
def isPySpace (c : Char) : Bool :=
  c = ' ' || c = '\t' || c = '\n' || c = '\r' || c = '\x0b' || c = '\x0c'

/-- Python `s.strip()`. -/
def pyStrip (s : String) : String :=
  String.mk (((s.data.dropWhile isPySpace).reverse.dropWhile isPySpace).reverse)

/-- The SSE event vocabulary of the streaming endpoint. -/
inductive SSEEvent where
  | start (total_images : Nat)
  | progress (step : String) (image : Option Nat) (total_images : Option Nat)
  | text (text : String)
  | complete (message_id : String) (hypothesis : String)
  | error (error : String)
deriving DecidableEq, Repr

/-- The behavior of one lazy token generator: the fragments it yields,
then an optional exception raised on the next pull. -/
structure TokenStream where
  tokens : List String
  failure : Option String

/-- The oracle outcomes of one invocation of the streaming
generator. -/
structure StreamEnv where
  fetchConversation : Except String Bool
  fetchImages : Except String (List ImageEnv)
  use_basic_pipeline : Bool
  groqStream : TokenStream
  visionStream : TokenStream
  commitAllCompleted : Except String Unit
  saveMessage : Except String String

/-- The basic-pipeline per-image loop of `analyze_stream_generator`:
yields the detection and OCR progress events, accumulates the evidence
lists, and aborts with the first exception. -/
def processImagesStream (total : Nat) :
    List ImageEnv → Nat → List DetectedItem → List ExtractedItem →
      List SSEEvent × Except String (List DetectedItem × List ExtractedItem)
  | [], _, objs, txts => ([], Except.ok (objs, txts))
  | img :: rest, idx, objs, txts =>
    match img.presigned with
    | Except.error e => ([], Except.error e)
    | Except.ok _ =>
      match img.commitProcessing with
      | Except.error e => ([], Except.error e)
      | Except.ok _ =>
        match img.detect with
        | Except.error e =>
          ([SSEEvent.progress "detection" (some idx) (some total)], Except.error e)
        | Except.ok det =>
          match img.extractText with
          | Except.error e =>
            ([SSEEvent.progress "detection" (some idx) (some total),
              SSEEvent.progress "ocr" (some idx) (some total)], Except.error e)
          | Except.ok ext =>
            match img.commitCompleted with
            | Except.error e =>
              ([SSEEvent.progress "detection" (some idx) (some total),
                SSEEvent.progress "ocr" (some idx) (some total)], Except.error e)
            | Except.ok _ =>
              let res := processImagesStream total rest (idx + 1) (objs ++ det) (txts ++ ext)
              (SSEEvent.progress "detection" (some idx) (some total) ::
                SSEEvent.progress "ocr" (some idx) (some total) :: res.1, res.2)

/-- The premium-pipeline per-image loop: resolves each presigned URL,
marks the image Processing, and yields one processing event per
image. -/
def premiumImageLoop (total : Nat) :
    List ImageEnv → Nat → List SSEEvent × Except String Unit
  | [], _ => ([], Except.ok ())
  | img :: rest, idx =>
    match img.presigned with
    | Except.error e => ([], Except.error e)
    | Except.ok _ =>
      match img.commitProcessing with
      | Except.error e => ([], Except.error e)
      | Except.ok _ =>
        let res := premiumImageLoop total rest (idx + 1)
        (SSEEvent.progress "processing" (some idx) (some total) :: res.1, res.2)

/-- The `try` body of `analyze_stream_generator`: the events yielded so
far, plus the message of an uncaught exception when one aborts the
body. -/
def streamBody (env : StreamEnv) : List SSEEvent × Option String :=
  match env.fetchConversation with
  | Except.error e => ([], some e)
  | Except.ok found =>
    if found then
      match env.fetchImages with
      | Except.error e => ([], some e)
      | Except.ok images =>
        if images.isEmpty then ([SSEEvent.error "No images in conversation"], none)
        else
          let startEv := SSEEvent.start images.length
          if env.use_basic_pipeline then
            match processImagesStream images.length images 1 [] [] with
            | (evs, Except.error e) => (startEv :: evs, some e)
            | (evs, Except.ok _) =>
              let pre := startEv :: evs ++ [SSEEvent.progress "nlp" none none] ++
                env.groqStream.tokens.map SSEEvent.text
              match env.groqStream.failure with
              | some e => (pre, some e)
              | none =>
                let full_hypothesis := String.join env.groqStream.tokens
                match env.saveMessage with
                | Except.error e => (pre, some e)
                | Except.ok msgId =>
                  (pre ++ [SSEEvent.complete msgId (pyStrip full_hypothesis)], none)
          else
            match premiumImageLoop images.length images 1 with
            | (evs, Except.error e) => (startEv :: evs, some e)
            | (evs, Except.ok _) =>
              let pre := startEv :: evs ++ [SSEEvent.progress "nlp" none none] ++
                env.visionStream.tokens.map SSEEvent.text
              match env.visionStream.failure with
              | some e => (pre, some e)
              | none =>
                match env.commitAllCompleted with
                | Except.error e => (pre, some e)
                | Except.ok _ =>
                  let full_hypothesis := String.join env.visionStream.tokens
                  match env.saveMessage with
                  | Except.error e => (pre, some e)
                  | Except.ok msgId =>
                    (pre ++ [SSEEvent.complete msgId (pyStrip full_hypothesis)], none)
    else ([SSEEvent.error "Conversation not found"], none)

/-- `analyze_stream_generator`: the `try` body's events followed, when
the body raised, by the single `error` event of the `except` clause. -/
def analyze_stream_generator (env : StreamEnv) : List SSEEvent :=
  match streamBody env with
  | (evs, some e) => evs ++ [SSEEvent.error e]
  | (evs, none) => evs

/-- The message of the failure that aborts a streaming run (validation
failure or exception), `none` when the run completes; follows the
generator's control flow. -/
def firstStreamFailure (env : StreamEnv) : Option String :=
  match env.fetchConversation with
  | Except.error e => some e
  | Except.ok found =>
    if found then
      match env.fetchImages with
      | Except.error e => some e
      | Except.ok images =>
        if images.isEmpty then some "No images in conversation"
        else if env.use_basic_pipeline then
          match (processImagesStream images.length images 1 [] []).2 with
          | Except.error e => some e
          | Except.ok _ =>
            match env.groqStream.failure with
            | some e => some e
            | none =>
              match env.saveMessage with
              | Except.error e => some e
              | Except.ok _ => none
        else
          match (premiumImageLoop images.length images 1).2 with
          | Except.error e => some e
          | Except.ok _ =>
            match env.visionStream.failure with
            | some e => some e
            | none =>
              match env.commitAllCompleted with
              | Except.error e => some e
              | Except.ok _ =>
                match env.saveMessage with
                | Except.error e => some e
                | Except.ok _ => none
    else some "Conversation not found"

/-- Events that are not terminal (neither `complete` nor `error`). -/
def notTerminal (e : SSEEvent) : Bool :=
  match e with
  | SSEEvent.complete _ _ => false
  | SSEEvent.error _ => false
  | _ => true

/-- The `text` payloads of an event sequence, in emission order. -/
def textPayloads (evs : List SSEEvent) : List String :=
  evs.filterMap fun e =>
    match e with
    | SSEEvent.text t => some t
    | _ => none

/-- The number of `error` events in a sequence. -/
def errorCount (evs : List SSEEvent) : Nat :=
  (evs.filter fun e =>
    match e with
    | SSEEvent.error _ => true
    | _ => false).length

/-! ## Trace structure of the background runner -/

/-- Every update emitted by the per-image loop carries neither `result`
nor `error`. -/
theorem processImages_bodyArgs (total : Nat) :
    ∀ (imgs : List ImageEnv) (idx : Nat) (objs : List DetectedItem)
      (txts : List ExtractedItem),
      ((processImages total imgs idx objs txts).1).all bodyArgs = true := by
  intro imgs
  induction imgs with
  | nil => intro idx objs txts; rfl
  | cons img rest ih =>
    intro idx objs txts
    show ((processImages total (img :: rest) idx objs txts).1).all bodyArgs = true
    rw [processImages]
    cases img.presigned with
    | error e => rfl
    | ok u =>
      cases img.commitProcessing with
      | error e => rfl
      | ok u2 =>
        cases img.detect with
        | error e => rfl
        | ok det =>
          cases img.extractText with
          | error e => rfl
          | ok ext =>
            cases img.commitCompleted with
            | error e => rfl
            | ok u3 =>
              have hrec := ih (idx + 1) (objs ++ det) (txts ++ ext)
              simpa [List.all_cons, bodyArgs] using hrec

/-- A `result`/`error`-free update leaves `result` and `error`
untouched. -/
theorem applyUpdate_bodyArgs {a : UpdateArgs} (ha : bodyArgs a = true)
    (j : Job) (now : Nat) :
    (applyUpdate j a now).result = j.result ∧ (applyUpdate j a now).error = j.error := by
  simp only [bodyArgs, Bool.and_eq_true, Option.isNone_iff_eq_none] at ha
  constructor
  · simp [applyUpdate_eq, ha.1]
  · simp [applyUpdate_eq, ha.2]

/-- Folding `result`/`error`-free updates never sets `result` or
`error`. -/
theorem foldl_result_error_none (now : Nat) :
    ∀ (us : List UpdateArgs), us.all bodyArgs = true → ∀ j : Job,
      j.result = none → j.error = none →
      (us.foldl (fun jj a => applyUpdate jj a now) j).result = none ∧
      (us.foldl (fun jj a => applyUpdate jj a now) j).error = none := by
  intro us
  induction us with
  | nil => intro _ j hr he; exact ⟨hr, he⟩
  | cons a us ih =>
    intro hall j hr he
    simp only [List.all_cons, Bool.and_eq_true] at hall
    have hstep := applyUpdate_bodyArgs hall.1 j now
    exact ih hall.2 (applyUpdate j a now) (hstep.1.trans hr) (hstep.2.trans he)

/-- For `n` within the body prefix, the job state is the fold of that
prefix. -/
theorem jobStateAt_within_body (j0 : Job) (body : List UpdateArgs) (fin : UpdateArgs)
    (now : Nat) {n : Nat} (hn : n ≤ body.length) :
    jobStateAt j0 (body ++ [fin]) now n =
      (body.take n).foldl (fun jj a => applyUpdate jj a now) j0 := by
  unfold jobStateAt
  rw [List.take_append_of_le_length hn]

/-- The final job state applies the terminal update to the folded
body. -/
theorem jobStateAt_last (j0 : Job) (body : List UpdateArgs) (fin : UpdateArgs)
    (now : Nat) :
    jobStateAt j0 (body ++ [fin]) now (body ++ [fin]).length =
      applyUpdate (body.foldl (fun jj a => applyUpdate jj a now) j0) fin now := by
  unfold jobStateAt
  rw [List.take_length, List.foldl_append]
  rfl

/-- Shape of every `run_analysis_job` trace: a `result`/`error`-free
body followed by exactly one terminal update, Failed with the run's
failure message or Completed with a result payload. -/
theorem run_analysis_job_shape (env : JobEnv) :
    ∃ body : List UpdateArgs, body.all bodyArgs = true ∧
      ((∃ e, firstJobFailure env = some e ∧
          run_analysis_job env = body ++ [failedArgs e]) ∨
        (firstJobFailure env = none ∧ ∃ m h no nt,
          run_analysis_job env = body ++ [completedArgs m h no nt])) := by
  unfold run_analysis_job firstJobFailure
  cases env.fetchConversation with
  | error e => exact ⟨[validatingArgs], rfl, Or.inl ⟨e, rfl, rfl⟩⟩
  | ok found =>
    cases found with
    | false => exact ⟨[validatingArgs], rfl, Or.inl ⟨_, rfl, rfl⟩⟩
    | true =>
      cases env.fetchImages with
      | error e => exact ⟨[validatingArgs], rfl, Or.inl ⟨e, rfl, rfl⟩⟩
      | ok images =>
        by_cases himg : images.isEmpty = true
        · simp only [himg, if_true]
          exact ⟨[validatingArgs], rfl, Or.inl ⟨_, rfl, rfl⟩⟩
        · simp only [himg, if_false, Bool.false_eq_true]
          have hb := processImages_bodyArgs images.length images 1 [] []
          cases hpi : processImages images.length images 1 [] [] with
          | mk us r =>
            rw [hpi] at hb
            simp only [hpi]
            cases r with
            | error e =>
              refine ⟨validatingArgs :: us, ?_, Or.inl ⟨e, rfl, rfl⟩⟩
              simpa [List.all_cons, validatingArgs, bodyArgs] using hb
            | ok pr =>
              cases pr with
              | mk objs txts =>
                have hbody : (validatingArgs :: us ++ [nlpArgs]).all bodyArgs = true := by
                  simpa [List.all_cons, List.all_append, validatingArgs, nlpArgs, bodyArgs]
                    using hb
                cases env.genHypothesis with
                | error e =>
                  refine ⟨validatingArgs :: us ++ [nlpArgs], hbody, Or.inl ⟨e, rfl, ?_⟩⟩
                  simp
                | ok content =>
                  cases env.saveMessage with
                  | error e =>
                    refine ⟨validatingArgs :: us ++ [nlpArgs], hbody, Or.inl ⟨e, rfl, ?_⟩⟩
                    simp
                  | ok msgId =>
                    refine ⟨validatingArgs :: us ++ [nlpArgs], hbody,
                      Or.inr ⟨rfl, msgId, content, objs.length, txts.length, ?_⟩⟩
                    simp

/-! ## Trace structure of the streaming generator -/

/-- Progress events. -/
def isProgressEv (e : SSEEvent) : Bool :=
  match e with
  | SSEEvent.progress _ _ _ => true
  | _ => false

/-- The basic per-image loop yields only progress events. -/
theorem processImagesStream_progress (total : Nat) :
    ∀ (imgs : List ImageEnv) (idx : Nat) (objs : List DetectedItem)
      (txts : List ExtractedItem),
      ((processImagesStream total imgs idx objs txts).1).all isProgressEv = true := by
  intro imgs
  induction imgs with
  | nil => intro idx objs txts; rfl
  | cons img rest ih =>
    intro idx objs txts
    show ((processImagesStream total (img :: rest) idx objs txts).1).all isProgressEv = true
    rw [processImagesStream]
    cases img.presigned with
    | error e => rfl
    | ok u =>
      cases img.commitProcessing with
      | error e => rfl
      | ok u2 =>
        cases img.detect with
        | error e => rfl
        | ok det =>
          cases img.extractText with
          | error e => rfl
          | ok ext =>
            cases img.commitCompleted with
            | error e => rfl
            | ok u3 =>
              have hrec := ih (idx + 1) (objs ++ det) (txts ++ ext)
              simpa [List.all_cons, isProgressEv] using hrec

/-- The premium per-image loop yields only progress events. -/
theorem premiumImageLoop_progress (total : Nat) :
    ∀ (imgs : List ImageEnv) (idx : Nat),
      ((premiumImageLoop total imgs idx).1).all isProgressEv = true := by
  intro imgs
  induction imgs with
  | nil => intro idx; rfl
  | cons img rest ih =>
    intro idx
    show ((premiumImageLoop total (img :: rest) idx).1).all isProgressEv = true
    rw [premiumImageLoop]
    cases img.presigned with
    | error e => rfl
    | ok u =>
      cases img.commitProcessing with
      | error e => rfl
      | ok u2 =>
        have hrec := ih (idx + 1)
        simpa [List.all_cons, isProgressEv] using hrec

/-- Progress events are not terminal. -/
theorem all_notTerminal_of_all_progress {evs : List SSEEvent}
    (h : evs.all isProgressEv = true) : evs.all notTerminal = true := by
  rw [List.all_eq_true] at h ⊢
  intro x hx
  have hp := h x hx
  cases x <;> simp_all [isProgressEv, notTerminal]

/-- Progress events carry no text payload. -/
theorem textPayloads_nil_of_all_progress {evs : List SSEEvent}
    (h : evs.all isProgressEv = true) : textPayloads evs = [] := by
  induction evs with
  | nil => rfl
  | cons a evs ih =>
    simp only [List.all_cons, Bool.and_eq_true] at h
    cases a with
    | progress s i tot => simpa [textPayloads, List.filterMap_cons] using ih h.2
    | start n => simp [isProgressEv] at h
    | text t => simp [isProgressEv] at h
    | complete a b => simp [isProgressEv] at h
    | error e => simp [isProgressEv] at h

/-- Text events are not terminal. -/
theorem all_notTerminal_map_text (ts : List String) :
    (ts.map SSEEvent.text).all notTerminal = true := by
  induction ts with
  | nil => rfl
  | cons t ts ih => simp [List.all_cons, notTerminal, ih]

/-- The text payloads of a list of text events are the payloads. -/
theorem textPayloads_map_text (ts : List String) :
    textPayloads (ts.map SSEEvent.text) = ts := by
  induction ts with
  | nil => rfl
  | cons t ts ih => simpa [textPayloads, List.filterMap_cons] using ih

/-- The prefix of a successful generation phase (start, loop progress,
nlp progress, text fragments) is free of terminal events. -/
theorem all_notTerminal_pre {evs : List SSEEvent} (h : evs.all isProgressEv = true)
    (n : Nat) (ts : List String) :
    (SSEEvent.start n :: evs ++ [SSEEvent.progress "nlp" none none] ++
      ts.map SSEEvent.text).all notTerminal = true := by
  have h1 := all_notTerminal_of_all_progress h
  have h2 := all_notTerminal_map_text ts
  simp [List.all_cons, List.all_append, h1, h2, notTerminal]

/-- The text payloads of a successful generation prefix are exactly the
yielded fragments. -/
theorem textPayloads_pre {evs : List SSEEvent} (h : evs.all isProgressEv = true)
    (n : Nat) (ts : List String) :
    textPayloads (SSEEvent.start n :: evs ++ [SSEEvent.progress "nlp" none none] ++
      ts.map SSEEvent.text) = ts := by
  have h1 := textPayloads_nil_of_all_progress h
  have h2 := textPayloads_map_text ts
  simp only [textPayloads, List.filterMap_cons, List.filterMap_append] at h1 h2 ⊢
  simp [h1, h2]

/-- Shape of every streaming trace: a terminal-free prefix followed by
exactly one terminal event — `error` carrying the run's failure
message, or `complete` whose hypothesis is the stripped concatenation
of the yielded text fragments. -/
theorem stream_shape (env : StreamEnv) :
    (∃ evs m, analyze_stream_generator env = evs ++ [SSEEvent.error m] ∧
      evs.all notTerminal = true ∧ firstStreamFailure env = some m) ∨
    (∃ evs mid ts,
      analyze_stream_generator env = evs ++ [SSEEvent.complete mid (pyStrip (String.join ts))] ∧
      evs.all notTerminal = true ∧ textPayloads evs = ts ∧
      firstStreamFailure env = none) := by
  unfold analyze_stream_generator streamBody firstStreamFailure
  cases env.fetchConversation with
  | error e => exact Or.inl ⟨[], e, rfl, rfl, rfl⟩
  | ok found =>
    cases found with
    | false => exact Or.inl ⟨[], "Conversation not found", rfl, rfl, rfl⟩
    | true =>
      cases env.fetchImages with
      | error e => exact Or.inl ⟨[], e, rfl, rfl, rfl⟩
      | ok images =>
        by_cases himg : images.isEmpty = true
        · simp only [himg, if_true]
          exact Or.inl ⟨[], "No images in conversation", rfl, rfl, rfl⟩
        · simp only [himg, if_false, Bool.false_eq_true]
          cases hbasic : env.use_basic_pipeline with
          | true =>
            simp only [if_true]
            have hp := processImagesStream_progress images.length images 1 [] []
            cases hpi : processImagesStream images.length images 1 [] [] with
            | mk evs r =>
              rw [hpi] at hp
              simp only [hpi]
              cases r with
              | error e =>
                refine Or.inl ⟨SSEEvent.start images.length :: evs, e, rfl, ?_, rfl⟩
                simpa [List.all_cons, notTerminal] using all_notTerminal_of_all_progress hp
              | ok pr =>
                cases hgf : env.groqStream.failure with
                | some e =>
                  refine Or.inl ⟨_, e, rfl, all_notTerminal_pre hp _ _, rfl⟩
                | none =>
                  cases hsm : env.saveMessage with
                  | error e =>
                    refine Or.inl ⟨_, e, rfl, all_notTerminal_pre hp _ _, rfl⟩
                  | ok msgId =>
                    refine Or.inr ⟨_, msgId, env.groqStream.tokens, rfl,
                      all_notTerminal_pre hp _ _, textPayloads_pre hp _ _, rfl⟩
          | false =>
            simp only [if_false, Bool.false_eq_true]
            have hp := premiumImageLoop_progress images.length images 1
            cases hpi : premiumImageLoop images.length images 1 with
            | mk evs r =>
              rw [hpi] at hp
              simp only [hpi]
              cases r with
              | error e =>
                refine Or.inl ⟨SSEEvent.start images.length :: evs, e, rfl, ?_, rfl⟩
                simpa [List.all_cons, notTerminal] using all_notTerminal_of_all_progress hp
              | ok pr =>
                cases hvf : env.visionStream.failure with
                | some e =>
                  refine Or.inl ⟨_, e, rfl, all_notTerminal_pre hp _ _, rfl⟩
                | none =>
                  cases hca : env.commitAllCompleted with
                  | error e =>
                    refine Or.inl ⟨_, e, rfl, all_notTerminal_pre hp _ _, rfl⟩
                  | ok u =>
                    cases hsm : env.saveMessage with
                    | error e =>
                      refine Or.inl ⟨_, e, rfl, all_notTerminal_pre hp _ _, rfl⟩
                    | ok msgId =>
                      refine Or.inr ⟨_, msgId, env.visionStream.tokens, rfl,
                        all_notTerminal_pre hp _ _, textPayloads_pre hp _ _, rfl⟩

/-! ## Claims about the pipeline runs -/

theorem textPayloads_append (l1 l2 : List SSEEvent) :
    textPayloads (l1 ++ l2) = textPayloads l1 ++ textPayloads l2 :=
  List.filterMap_append l1 l2 _

theorem errorCount_append (l1 l2 : List SSEEvent) :
    errorCount (l1 ++ l2) = errorCount l1 + errorCount l2 := by
  simp [errorCount, List.filter_append]

theorem errorCount_zero_of_all_notTerminal {evs : List SSEEvent}
    (h : evs.all notTerminal = true) : errorCount evs = 0 := by
  induction evs with
  | nil => rfl
  | cons a evs ih =>
    simp only [List.all_cons, Bool.and_eq_true] at h
    cases a with
    | error e => simp [notTerminal] at h
    | start n => simpa [errorCount, List.filter_cons] using ih h.2
    | progress s i t2 => simpa [errorCount, List.filter_cons] using ih h.2
    | text t => simpa [errorCount, List.filter_cons] using ih h.2
    | complete m hh => simpa [errorCount, List.filter_cons] using ih h.2

theorem not_complete_mem_of_all_notTerminal {evs : List SSEEvent}
    (h : evs.all notTerminal = true) (mid hh : String) :
    SSEEvent.complete mid hh ∉ evs := by
  intro hmem
  have hx := List.all_eq_true.mp h _ hmem
  simp [notTerminal] at hx

theorem applyUpdate_status (j : Job) (a : UpdateArgs) (now : Nat) :
    (applyUpdate j a now).status = a.status.getD j.status := by
  rw [applyUpdate_eq]

theorem applyUpdate_result (j : Job) (a : UpdateArgs) (now : Nat) :
    (applyUpdate j a now).result = (a.result.map some).getD j.result := by
  rw [applyUpdate_eq]

theorem applyUpdate_error (j : Job) (a : UpdateArgs) (now : Nat) :
    (applyUpdate j a now).error = (a.error.map some).getD j.error := by
  rw [applyUpdate_eq]

/-- Invariant of the sequence of job states produced by a body of
`result`/`error`-free updates followed by one terminal update. -/
theorem trace_state_invariant (j0 : Job) (h0r : j0.result = none) (h0e : j0.error = none)
    (body : List UpdateArgs) (hball : body.all bodyArgs = true) (fin : UpdateArgs)
    (now : Nat)
    (hfinP : (fin.result = none ∧ (∃ e, fin.error = some e) ∧
        fin.status = some JobStatus.failed) ∨
      (fin.error = none ∧ fin.result.isSome = true ∧
        fin.status = some JobStatus.completed)) :
    (∀ n, n ≤ (body ++ [fin]).length →
      ¬((jobStateAt j0 (body ++ [fin]) now n).result.isSome = true ∧
          (jobStateAt j0 (body ++ [fin]) now n).error.isSome = true) ∧
      ((jobStateAt j0 (body ++ [fin]) now n).result.isSome = true →
        (jobStateAt j0 (body ++ [fin]) now n).status = JobStatus.completed) ∧
      ((jobStateAt j0 (body ++ [fin]) now n).error.isSome = true →
        (jobStateAt j0 (body ++ [fin]) now n).status = JobStatus.failed)) ∧
    (∀ i k, i ≤ k → k ≤ (body ++ [fin]).length →
      ((jobStateAt j0 (body ++ [fin]) now i).result.isSome = true ∨
        (jobStateAt j0 (body ++ [fin]) now i).error.isSome = true) →
      jobStateAt j0 (body ++ [fin]) now k = jobStateAt j0 (body ++ [fin]) now i) := by
  have hlen : (body ++ [fin]).length = body.length + 1 := by simp
  have hpre : ∀ n, n ≤ body.length →
      (jobStateAt j0 (body ++ [fin]) now n).result = none ∧
      (jobStateAt j0 (body ++ [fin]) now n).error = none := by
    intro n hn
    rw [jobStateAt_within_body _ _ _ _ hn]
    refine foldl_result_error_none now (body.take n) ?_ _ h0r h0e
    rw [List.all_eq_true] at hball ⊢
    exact fun x hx => hball x (List.take_subset n body hx)
  have hmid := foldl_result_error_none now body hball j0 h0r h0e
  have hlast := jobStateAt_last j0 body fin now
  have hfinal :
      ((jobStateAt j0 (body ++ [fin]) now (body ++ [fin]).length).result = none ∧
        (jobStateAt j0 (body ++ [fin]) now (body ++ [fin]).length).error.isSome = true ∧
        (jobStateAt j0 (body ++ [fin]) now (body ++ [fin]).length).status = JobStatus.failed) ∨
      ((jobStateAt j0 (body ++ [fin]) now (body ++ [fin]).length).error = none ∧
        (jobStateAt j0 (body ++ [fin]) now (body ++ [fin]).length).result.isSome = true ∧
        (jobStateAt j0 (body ++ [fin]) now (body ++ [fin]).length).status = JobStatus.completed) := by
    rcases hfinP with ⟨hf1, ⟨e, hf2⟩, hf3⟩ | ⟨hf1, hf2, hf3⟩
    · refine Or.inl ⟨?_, ?_, ?_⟩ <;> rw [hlast]
      · rw [applyUpdate_result, hf1]
        simpa using hmid.1
      · rw [applyUpdate_error, hf2]
        simp
      · rw [applyUpdate_status, hf3]
        rfl
    · obtain ⟨rp, hrp⟩ := Option.isSome_iff_exists.mp hf2
      refine Or.inr ⟨?_, ?_, ?_⟩ <;> rw [hlast]
      · rw [applyUpdate_error, hf1]
        simpa using hmid.2
      · rw [applyUpdate_result, hrp]
        simp
      · rw [applyUpdate_status, hf3]
        rfl
  constructor
  · intro n hn
    by_cases hn' : n = (body ++ [fin]).length
    · subst hn'
      rcases hfinal with ⟨hf1, hf2, hf3⟩ | ⟨hf1, hf2, hf3⟩
      · refine ⟨?_, ?_, fun _ => hf3⟩
        · rw [hf1]; simp
        · rw [hf1]; simp
      · refine ⟨?_, fun _ => hf3, ?_⟩
        · rw [hf1]; simp
        · rw [hf1]; simp
    · have hn2 : n ≤ body.length := by omega
      obtain ⟨hr, he⟩ := hpre n hn2
      refine ⟨?_, ?_, ?_⟩ <;> simp [hr, he]
  · intro i k hik hk hset
    by_cases hi : i = (body ++ [fin]).length
    · have hkk : k = (body ++ [fin]).length := le_antisymm hk (hi ▸ hik)
      rw [hi, hkk]
    · have hi2 : i ≤ body.length := by
        have hle : i ≤ (body ++ [fin]).length := le_trans hik hk
        omega
      obtain ⟨hr, he⟩ := hpre i hi2
      rw [hr, he] at hset
      simp at hset

/-- C1: along any run of the background pipeline, a job's `result` and
`error` are never both set, a set `result` implies status Completed and
a set `error` implies status Failed, and once either is set no later
update of the run changes the job's state again. -/
theorem claim_c1_result_error_lifecycle (env : JobEnv) (id t now i k : Nat)
    (hik : i ≤ k) (hk : k ≤ (run_analysis_job env).length) :
    (∀ n, n ≤ (run_analysis_job env).length →
      ¬((jobStateAt (initialJob id t) (run_analysis_job env) now n).result.isSome = true ∧
          (jobStateAt (initialJob id t) (run_analysis_job env) now n).error.isSome = true) ∧
      ((jobStateAt (initialJob id t) (run_analysis_job env) now n).result.isSome = true →
        (jobStateAt (initialJob id t) (run_analysis_job env) now n).status = JobStatus.completed) ∧
      ((jobStateAt (initialJob id t) (run_analysis_job env) now n).error.isSome = true →
        (jobStateAt (initialJob id t) (run_analysis_job env) now n).status = JobStatus.failed)) ∧
    (((jobStateAt (initialJob id t) (run_analysis_job env) now i).result.isSome = true ∨
        (jobStateAt (initialJob id t) (run_analysis_job env) now i).error.isSome = true) →
      jobStateAt (initialJob id t) (run_analysis_job env) now k =
        jobStateAt (initialJob id t) (run_analysis_job env) now i) := by
  obtain ⟨body, hball, hcase⟩ := run_analysis_job_shape env
  have hfin : ∃ fin : UpdateArgs, run_analysis_job env = body ++ [fin] ∧
      ((fin.result = none ∧ (∃ e, fin.error = some e) ∧
          fin.status = some JobStatus.failed) ∨
        (fin.error = none ∧ fin.result.isSome = true ∧
          fin.status = some JobStatus.completed)) := by
    rcases hcase with ⟨e, _, htr⟩ | ⟨_, m, hcont, no, nt, htr⟩
    · exact ⟨failedArgs e, htr, Or.inl ⟨rfl, ⟨e, rfl⟩, rfl⟩⟩
    · exact ⟨completedArgs m hcont no nt, htr, Or.inr ⟨rfl, rfl, rfl⟩⟩
  obtain ⟨fin, htr, hfinP⟩ := hfin
  rw [htr] at hk ⊢
  have hmain := trace_state_invariant (initialJob id t) rfl rfl body hball fin now hfinP
  exact ⟨hmain.1, hmain.2 i k hik hk⟩

/-- C2: whenever a streaming run ends with a `complete` event, the
trimmed concatenation of all `text` payloads, in emission order, equals
the `hypothesis` field of that terminal event. -/
theorem claim_c2_stream_concat (env : StreamEnv) (mid h : String)
    (hc : (analyze_stream_generator env).getLast? =
      some (SSEEvent.complete mid h)) :
    pyStrip (String.join (textPayloads (analyze_stream_generator env))) = h := by
  rcases stream_shape env with ⟨evs, m, hgen, hnt, hff⟩ | ⟨evs, mid2, ts, hgen, hnt, htp, hff⟩
  · rw [hgen, List.getLast?_concat] at hc
    simp at hc
  · rw [hgen, List.getLast?_concat] at hc
    simp only [Option.some.injEq, SSEEvent.complete.injEq] at hc
    have htp2 : textPayloads (evs ++
        [SSEEvent.complete mid2 (pyStrip (String.join ts))]) = ts := by
      rw [textPayloads_append, htp]
      simp [textPayloads]
    rw [hgen, htp2, hc.2]

/-- C3: no failure escapes the run boundary. A job run always ends in a
terminal state: Failed carrying the failure's message (and no result)
when the run fails, Completed with a result (and no error) otherwise.
A streaming run that fails emits exactly one `error` event, as the last
event, with the failure's message, and never emits `complete`; a
successful run emits no `error` event and ends with `complete`. -/
theorem claim_c3_no_escape (jenv : JobEnv) (senv : StreamEnv) (id t now : Nat) :
    ((∃ e, firstJobFailure jenv = some e ∧
        (jobStateAt (initialJob id t) (run_analysis_job jenv) now
          (run_analysis_job jenv).length).status = JobStatus.failed ∧
        (jobStateAt (initialJob id t) (run_analysis_job jenv) now
          (run_analysis_job jenv).length).error = some e ∧
        (jobStateAt (initialJob id t) (run_analysis_job jenv) now
          (run_analysis_job jenv).length).result = none) ∨
      (firstJobFailure jenv = none ∧
        (jobStateAt (initialJob id t) (run_analysis_job jenv) now
          (run_analysis_job jenv).length).status = JobStatus.completed ∧
        (jobStateAt (initialJob id t) (run_analysis_job jenv) now
          (run_analysis_job jenv).length).error = none ∧
        (jobStateAt (initialJob id t) (run_analysis_job jenv) now
          (run_analysis_job jenv).length).result.isSome = true)) ∧
    ((∃ m, firstStreamFailure senv = some m ∧
        errorCount (analyze_stream_generator senv) = 1 ∧
        (analyze_stream_generator senv).getLast? = some (SSEEvent.error m) ∧
        (∀ mid h, SSEEvent.complete mid h ∉ analyze_stream_generator senv)) ∨
      (firstStreamFailure senv = none ∧
        errorCount (analyze_stream_generator senv) = 0 ∧
        ∃ mid h, (analyze_stream_generator senv).getLast? =
          some (SSEEvent.complete mid h))) := by
  constructor
  · obtain ⟨body, hball, hcase⟩ := run_analysis_job_shape jenv
    have hmid := foldl_result_error_none now body hball (initialJob id t) rfl rfl
    rcases hcase with ⟨e, hff, htr⟩ | ⟨hff, m, hcont, no, nt, htr⟩
    · refine Or.inl ⟨e, hff, ?_, ?_, ?_⟩ <;> rw [htr, jobStateAt_last]
      · rw [applyUpdate_status]
        rfl
      · rw [applyUpdate_error]
        rfl
      · rw [applyUpdate_result]
        simpa [failedArgs] using hmid.1
    · refine Or.inr ⟨hff, ?_, ?_, ?_⟩ <;> rw [htr, jobStateAt_last]
      · rw [applyUpdate_status]
        rfl
      · rw [applyUpdate_error]
        simpa [completedArgs] using hmid.2
      · rw [applyUpdate_result]
        rfl
  · rcases stream_shape senv with ⟨evs, m, hgen, hnt, hff⟩ | ⟨evs, mid2, ts, hgen, hnt, htp, hff⟩
    · refine Or.inl ⟨m, hff, ?_, ?_, ?_⟩
      · rw [hgen, errorCount_append, errorCount_zero_of_all_notTerminal hnt]
        rfl
      · rw [hgen, List.getLast?_concat]
      · intro mid h hmem
        rw [hgen] at hmem
        rcases List.mem_append.mp hmem with h1 | h2
        · exact not_complete_mem_of_all_notTerminal hnt mid h h1
        · simp at h2
    · refine Or.inr ⟨hff, ?_, mid2, pyStrip (String.join ts), ?_⟩
      · rw [hgen, errorCount_append, errorCount_zero_of_all_notTerminal hnt]
        rfl
      · rw [hgen, List.getLast?_concat]

/-- An image whose external calls all succeed. -/
def okImage : ImageEnv :=
  { presigned := Except.ok "url",
    commitProcessing := Except.ok (),
    detect := Except.ok [{ label := "knife", confidence := 1 }],
    extractText := Except.ok [],
    commitCompleted := Except.ok () }

/-- A fully-successful background-run environment. -/
def c1Env : JobEnv :=
  { conversationId := "c",
    fetchConversation := Except.ok true,
    fetchImages := Except.ok [okImage],
    genHypothesis := Except.ok "hyp",
    saveMessage := Except.ok "m1" }

theorem claim_c1_witness :
    (jobStateAt (initialJob 0 0) (run_analysis_job c1Env) 1 5).status =
      JobStatus.completed :=
  ((claim_c1_result_error_lifecycle c1Env 0 0 1 5 5 le_rfl (by decide)).1
    5 (by decide)).2.1 (by decide)

/-- A fully-successful basic-pipeline streaming environment. -/
def c2Env : StreamEnv :=
  { fetchConversation := Except.ok true,
    fetchImages := Except.ok [okImage],
    use_basic_pipeline := true,
    groqStream := { tokens := ["Hello ", "world "], failure := none },
    visionStream := { tokens := [], failure := none },
    commitAllCompleted := Except.ok (),
    saveMessage := Except.ok "m1" }

theorem claim_c2_witness :
    pyStrip (String.join (textPayloads (analyze_stream_generator c2Env))) =
      "Hello world" :=
  claim_c2_stream_concat c2Env "m1" "Hello world" (by decide)
